import Mathlib

/-!
Verification of the `term_windows` layout and window-lifecycle engine
(`src/term_windows/term_windows.py`) against its specification.

The embedding translates the Python source into executable Lean definitions:

* Python dimension fields hold `None`, `int`, or `float` values; `isinstance`
  checks distinguish `int` from `float`.  We model a number as the tagged
  union `PyNum` (`int` over `ℤ`, `float` over `ℚ`).  Python floats are modelled
  as exact rationals: every concrete value appearing in the claims (halves,
  tenths of small magnitudes) is handled exactly by IEEE doubles, so the
  idealisation agrees with the program on all inputs used below.
* Python `round` (single-argument, on a float) rounds half to even and
  returns an `int`; `int(...)` truncates toward zero; `//` is floor division;
  `x or y` takes `y` exactly when `x` is falsy (`None`, `0`, `0.0`, `[]`, `""`).
* `max(a, b)` / `min(a, b)` return the first argument on ties.

Mutable attribute updates are modelled by explicit state passing; `@property`
getters become functions of the stored state.
-/

namespace TermWindows

/-- A number stored in a Python dimension field: either an `int` or a `float`
(floats modelled as exact rationals). -/
inductive PyNum where
  | int (z : ℤ)
  | float (q : ℚ)
deriving DecidableEq, Repr

namespace PyNum

/-- Numeric value of a Python number. -/
def toQ : PyNum → ℚ
  | .int z => (z : ℚ)
  | .float q => q

/-- Python addition: `int + int` stays `int`; any `float` operand makes the
result a `float`. -/
def add : PyNum → PyNum → PyNum
  | .int a, .int b => .int (a + b)
  | a, b => .float (a.toQ + b.toQ)

/-- Python subtraction, with the same `int`/`float` promotion rule. -/
def sub : PyNum → PyNum → PyNum
  | .int a, .int b => .int (a - b)
  | a, b => .float (a.toQ - b.toQ)

/-- Python floor division by two (`x // 2`): floor of the quotient, staying
`int` on an `int` and `float` on a `float`. -/
def floordiv2 : PyNum → PyNum
  | .int a => .int ⌊(a : ℚ) / 2⌋
  | .float q => .float ((⌊q / 2⌋ : ℤ) : ℚ)

end PyNum

/-- Python `max(a, b)`: the second argument only when it is strictly larger. -/
def pymax (a b : PyNum) : PyNum := if a.toQ < b.toQ then b else a

/-- Python `min(a, b)`: the second argument only when it is strictly smaller. -/
def pymin (a b : PyNum) : PyNum := if b.toQ < a.toQ then b else a

/-- Python `round` on a float value: round half to even, yielding an `int`. -/
def roundHalfEven (q : ℚ) : ℤ :=
  if q - ⌊q⌋ < 1 / 2 then ⌊q⌋
  else if 1 / 2 < q - ⌊q⌋ then ⌊q⌋ + 1
  else if ⌊q⌋ % 2 = 0 then ⌊q⌋ else ⌊q⌋ + 1

/-- `Dimensions`: a rectangle-spec whose four fields are each absent (`None`),
an `int`, or a `float` (a relative fraction). -/
structure Dimensions where
  x : Option PyNum := none
  y : Option PyNum := none
  width : Option PyNum := none
  height : Option PyNum := none
deriving DecidableEq, Repr

/-- `ConstrainedDimensions._clamp(val, minval, maxval)`: floats are scaled by
`minval + val * (maxval - minval)`, rounded (half to even) to an `int`, then
clamped; ints are clamped directly.  `min`/`max` can return `maxval` itself,
so a non-integer bound can leak into the result. -/
def clampDim (val minval maxval : PyNum) : PyNum :=
  match val with
  | .float f =>
      pymax minval (pymin maxval
        (.int (roundHalfEven (minval.toQ + f * (maxval.toQ - minval.toQ)))))
  | .int z => pymax minval (pymin maxval (.int z))

/-- Python `base.x or 0`: `None`, `0` and `0.0` are falsy and give the `int`
`0`; any other number passes through. -/
def pyOrZero : Option PyNum → PyNum
  | none => .int 0
  | some v => if v.toQ = 0 then .int 0 else v

/-- `ConstrainedDimensions`: a rectangle-spec `base` resolved against parent
bounds.  Per the contract (spec §4.1) and every in-repo use
(`Dimensions(0, 0, term.width, term.height)`), the constraints are a fully
resolved rectangle with concrete integer fields `cx`, `cy`, `cw`, `ch`. -/
structure ConstrainedDimensions where
  base : Dimensions
  cx : ℤ
  cy : ℤ
  cw : ℤ
  ch : ℤ
deriving DecidableEq, Repr

namespace ConstrainedDimensions

/-- The local `clamped` value inside the `width` property:
`_clamp(base.width, 0, constraints.width - (base.x or 0))`
(absent when `base.width` is `None`). -/
def widthClamped (d : ConstrainedDimensions) : Option PyNum :=
  match d.base.width with
  | none => none
  | some w => some (clampDim w (.int 0) (PyNum.sub (.int d.cw) (pyOrZero d.base.x)))

/-- The `width` property: full `constraints.width` when absent; otherwise the
clamped value, falling back to `constraints.width` when the clamp is falsy
(`clamped or self.constraints.width`). -/
def width (d : ConstrainedDimensions) : PyNum :=
  match d.widthClamped with
  | none => .int d.cw
  | some c => if c.toQ = 0 then .int d.cw else c

/-- The local `clamped` value inside the `height` property. -/
def heightClamped (d : ConstrainedDimensions) : Option PyNum :=
  match d.base.height with
  | none => none
  | some h => some (clampDim h (.int 0) (PyNum.sub (.int d.ch) (pyOrZero d.base.y)))

/-- The `height` property, symmetric to `width`. -/
def height (d : ConstrainedDimensions) : PyNum :=
  match d.heightClamped with
  | none => .int d.ch
  | some c => if c.toQ = 0 then .int d.ch else c

/-- The `x` property: centred on the resolved width when absent, otherwise
clamped to `[constraints.x, constraints.x + constraints.width]`. -/
def x (d : ConstrainedDimensions) : PyNum :=
  match d.base.x with
  | none => PyNum.add (.int d.cx) ((PyNum.sub (.int d.cw) d.width).floordiv2)
  | some bx => clampDim bx (.int d.cx) (.int (d.cx + d.cw))

/-- The `y` property, symmetric to `x`. -/
def y (d : ConstrainedDimensions) : PyNum :=
  match d.base.y with
  | none => PyNum.add (.int d.cy) ((PyNum.sub (.int d.ch) d.height).floordiv2)
  | some by' => clampDim by' (.int d.cy) (.int (d.cy + d.ch))

end ConstrainedDimensions

/-- `OffsetDimensions`: a rectangle derived from a resolved base by per-field
deltas.  In the program the base is always a `ConstrainedDimensions` (whose
properties never return `None`, so the source's `is not None` guards always
pass) and the offsets are always four concrete numbers
(`Dimensions(1, 1, -2, -2)` or `Dimensions(0, 0, 0, 0)`). -/
structure OffsetDimensions where
  base : ConstrainedDimensions
  offX : PyNum
  offY : PyNum
  offW : PyNum
  offH : PyNum
deriving DecidableEq, Repr

namespace OffsetDimensions

/-- The `x` property: `base.x + offsets.x`. -/
def x (o : OffsetDimensions) : PyNum := PyNum.add o.base.x o.offX

/-- The `y` property: `base.y + offsets.y`. -/
def y (o : OffsetDimensions) : PyNum := PyNum.add o.base.y o.offY

/-- The `width` property: `base.width + offsets.width`. -/
def width (o : OffsetDimensions) : PyNum := PyNum.add o.base.width o.offW

/-- The `height` property: `base.height + offsets.height`. -/
def height (o : OffsetDimensions) : PyNum := PyNum.add o.base.height o.offH

end OffsetDimensions

/-- Geometry-relevant state of a `Window`: its desired rectangle-spec and
border flag, bound to terminal bounds `(0, 0, termW, termH)` as in
`Window.__init__` / `Window.handle_resize`. -/
structure Window where
  base : Dimensions
  border : Bool
  termW : ℤ
  termH : ℤ
deriving DecidableEq, Repr

namespace Window

/-- `self.position`: the desired rectangle constrained by the terminal. -/
def position (w : Window) : ConstrainedDimensions :=
  ⟨w.base, 0, 0, w.termW, w.termH⟩

/-- `self.content`: the position offset by `(1, 1, -2, -2)` when bordered,
`(0, 0, 0, 0)` otherwise. -/
def content (w : Window) : OffsetDimensions :=
  if w.border then ⟨w.position, .int 1, .int 1, .int (-2), .int (-2)⟩
  else ⟨w.position, .int 0, .int 0, .int 0, .int 0⟩

end Window

/-- Key identities relevant to `TextWindow.handle_input` /
`Window.handle_input`. -/
inductive Key where
  | down
  | up
  | pgdown
  | pgup
  | escape
  | other
deriving DecidableEq, Repr

/-- Scroll-relevant mutable state of a `TextWindow`. -/
structure TWScroll where
  scroll : ℤ
  redraw : Bool
  closed : Bool
deriving DecidableEq, Repr

namespace TextWindow

/-- `Window.handle_input`: escape closes, everything else is ignored. -/
def baseHandleInput (k : Key) (s : TWScroll) : TWScroll :=
  if k = .escape then { s with closed := true } else s

/-- `TextWindow.handle_input` with `total_lines = len(self._lines)` and
`max_content_height = self.content.height`: the four scroll keys are
intercepted only when the text overflows; arrows move by one, page keys by a
page, each only within `[0, total_lines - max_content_height]`, marking
redraw whenever a branch fires; all other cases defer to the base handler. -/
def handleInput (totalLines visibleH : ℤ) (k : Key) (s : TWScroll) : TWScroll :=
  if totalLines > visibleH then
    match k with
    | .down =>
        if s.scroll < totalLines - visibleH then
          { s with scroll := s.scroll + 1, redraw := true }
        else s
    | .up =>
        if s.scroll > 0 then
          { s with scroll := s.scroll - 1, redraw := true }
        else s
    | .pgdown =>
        if s.scroll < totalLines - visibleH then
          { s with scroll := min (s.scroll + visibleH) (totalLines - visibleH),
                   redraw := true }
        else s
    | .pgup =>
        if s.scroll > 0 then
          { s with scroll := max (s.scroll - visibleH) 0, redraw := true }
        else s
    | k => baseHandleInput k s
  else baseHandleInput k s

/-- Folding a sequence of key inputs through `handle_input`. -/
def runKeys (totalLines visibleH : ℤ) (s : TWScroll) (ks : List Key) : TWScroll :=
  ks.foldl (fun st k => handleInput totalLines visibleH k st) s

end TextWindow

/-- The newline character. -/
def nlChar : Char := Char.ofNat 10

/-- The newline string. -/
def nlString : String := String.mk [nlChar]

/-- Split a character list at newlines; always returns at least one piece. -/
def splitNl : List Char → List (List Char)
  | [] => [[]]
  | c :: rest =>
    if c = nlChar then [] :: splitNl rest
    else
      match splitNl rest with
      | [] => [[c]]
      | h :: t => (c :: h) :: t

/-- Python `str.splitlines()` (newline-only idealisation): `""` yields `[]`,
interior newlines separate lines, and a trailing newline adds no empty
final line. -/
def pySplitlines (s : String) : List String :=
  if s.data = [] then []
  else
    let pieces := (splitNl s.data).map String.mk
    if pieces.getLast? = some "" then pieces.dropLast else pieces

/-- Python `"\n".join(lines)`. -/
def joinNl : List String → String
  | [] => ""
  | [s] => s
  | s :: rest => s ++ nlString ++ joinNl rest

/-- Python `lines or ['']`: an empty list is falsy. -/
def pyOrLines (ls : List String) : List String :=
  if ls.isEmpty then [""] else ls

/-- Python `int(...)` on a number: truncation toward zero. -/
def pyInt (q : ℚ) : ℤ := if 0 ≤ q then ⌊q⌋ else -⌊-q⌋

/-- `max(len(line) + 2 for line in lines) if lines else 0`. -/
def maxLineLength (ls : List String) : ℤ :=
  match ls.map (fun l => (l.length : ℤ) + 2) with
  | [] => 0
  | a :: rest => rest.foldl max a

namespace TextWindow

/-- Re-wrapping in `TextWindow.handle_resize`: wrap each source line
independently, an empty wrap result standing in as one empty line.  The
wrapping algorithm itself (`textwrap.wrap`, declared an external collaborator
by the spec) is a parameter `wrap` taking the width target and a line. -/
def wrapLines (wrap : ℤ → String → List String) (mcw : ℤ) (text : String) :
    List String :=
  (pyOrLines (pySplitlines text)).flatMap fun line => pyOrLines (wrap mcw line)

/-- Result of `TextWindow.handle_resize`: the recomputed wrapped lines and the
window's new desired size (`self.position.base.width` / `.height`). -/
structure ResizeResult where
  lines : List String
  baseWidth : ℤ
  baseHeight : ℤ
deriving DecidableEq, Repr

/-- `TextWindow.handle_resize` with the constraints already re-bound to the
terminal size `(tw, th)`; `border` fixes the content offsets (`-2` or `0`). -/
def handleResize (wrap : ℤ → String → List String) (text : String)
    (border : Bool) (tw th : ℤ) : ResizeResult :=
  let offW : ℤ := if border then -2 else 0
  let offH : ℤ := if border then -2 else 0
  let maxWinWidth := pyInt ((tw : ℚ) * (9 / 10))
  let maxWinHeight := pyInt ((th : ℚ) * (9 / 10))
  let maxContentWidth := maxWinWidth + offW - 2
  let ls := wrapLines wrap maxContentWidth text
  { lines := ls
    baseWidth := max 10 (min maxWinWidth (maxLineLength ls - offW))
    baseHeight := max 6 (min maxWinHeight ((ls.length : ℤ) - offH)) }

/-- The `text` argument of `TextWindow.__init__`: a single block or a
list/tuple of lines. -/
inductive TextArg where
  | str (s : String)
  | list (ls : List String)
deriving DecidableEq, Repr

/-- `"\n".join(text) if isinstance(text, (list, tuple)) else text`. -/
def textOfArg : TextArg → String
  | .str s => s
  | .list ls => joinNl ls

/-- State of a freshly constructed `TextWindow`. -/
structure InitState where
  text : String
  scroll : ℤ
  lines : List String
  baseWidth : ℤ
  baseHeight : ℤ
deriving DecidableEq, Repr

/-- `TextWindow.__init__`: stores the joined text, zero scroll and empty
`_lines`, then calls `Window.__init__`, whose `self.term = term` assignment
invokes the `term` setter, which calls `self.handle_resize()` — dispatching to
`TextWindow.handle_resize`, which wraps the stored text immediately. -/
def init (wrap : ℤ → String → List String) (arg : TextArg) (border : Bool)
    (tw th : ℤ) : InitState :=
  let text := textOfArg arg
  let r := handleResize wrap text border tw th
  { text := text, scroll := 0, lines := r.lines,
    baseWidth := r.baseWidth, baseHeight := r.baseHeight }

/-- `below_the_fold = total_lines - max_content_height` in `TextWindow.draw`. -/
def belowTheFold (lines : List String) (contentH : ℤ) : ℤ :=
  (lines.length : ℤ) - contentH

/-- The `scroll_pos` computed by `TextWindow.draw`: `None`, overwritten with
the true division `scroll / below_the_fold` only when `below_the_fold > 0`. -/
def scrollPos (lines : List String) (contentH scroll : ℤ) : Option ℚ :=
  if 0 < belowTheFold lines contentH then
    some ((scroll : ℚ) / ((belowTheFold lines contentH : ℤ) : ℚ))
  else none

end TextWindow

/-- Python slicing `s[:n]`: a nonnegative bound keeps the first `n`
characters; a negative bound drops `-n` characters from the end. -/
def pySlice (s : String) (n : ℤ) : String :=
  if n < 0 then s.take (max 0 ((s.length : ℤ) + n)).toNat else s.take n.toNat

/-- Python `s.ljust(n)`: pad with spaces on the right up to width `n`. -/
def pyLjust (s : String) (n : ℤ) : String :=
  if (s.length : ℤ) < n then
    s ++ String.mk (List.replicate (n - (s.length : ℤ)).toNat (Char.ofNat 32))
  else s

namespace TextWindow

/-- The text printed for display row `i` by `TextWindow.draw`: the wrapped
line at `scroll + i` clipped to the content width when that index is below
`total_lines`, the empty string otherwise, then right-padded.  (Python list
indexing would also accept negative indices; the claims only concern
`scroll ≥ 0`, where the `line_idx < total_lines` guard is the sole bounds
check needed.) -/
def rowLine (lines : List String) (contentW scroll : ℤ) (i : ℕ) : String :=
  let idx := scroll + (i : ℤ)
  let line :=
    if idx < (lines.length : ℤ) then pySlice (lines.getD idx.toNat "") (contentW - 2)
    else ""
  pyLjust line (contentW - 2)

end TextWindow

/-- Stack-relevant state of a window inside `WindowController`: the `closed`
flag, the `redraw` flag, and the optional spawned `child`. -/
inductive PWin where
  | mk (closed : Bool) (redraw : Bool) (child : Option PWin)

namespace PWin

/-- The `closed` flag. -/
def closed : PWin → Bool
  | .mk c _ _ => c

/-- The `redraw` flag. -/
def redraw : PWin → Bool
  | .mk _ r _ => r

/-- The `child` slot. -/
def child : PWin → Option PWin
  | .mk _ _ ch => ch

/-- `window.child = None`. -/
def clearChild : PWin → PWin
  | .mk c r _ => .mk c r none

/-- `window.redraw = True`. -/
def setRedraw : PWin → PWin
  | .mk c _ ch => .mk c true ch

end PWin

namespace WindowController

/-- `WindowController.push_window`: mark the window for redraw and put it on
top of the stack (modelled topmost-first; binding `term` and `controller` is
outside this model). -/
def pushWindow (w : PWin) (stack : List PWin) : List PWin :=
  PWin.setRedraw w :: stack

/-- `WindowController.pop_window`: remove the topmost window; if one remains
below, clear its `child` slot and mark it for redraw. -/
def popWindow : List PWin → List PWin
  | [] => []
  | _ :: rest =>
    match rest with
    | [] => []
    | p :: rs => PWin.setRedraw (PWin.clearChild p) :: rs

/-- `WindowController._handle_key` on a non-empty stack: run the top window's
input handler (`handler` stands for the dynamically dispatched
`handle_input`); pop if it closed (its `child` is never pushed), else push the
produced child, clearing the parent's slot the instant it is pushed. -/
def handleKey (handler : PWin → PWin) : List PWin → List PWin
  | [] => []
  | w :: rest =>
    let w' := handler w
    if w'.closed then popWindow (w' :: rest)
    else
      match w'.child with
      | some c => pushWindow c (PWin.clearChild w' :: rest)
      | none => w' :: rest

end WindowController

/-- Concrete stand-in for `textwrap.wrap` used in closed evaluations: an
empty line wraps to no lines (exactly as `textwrap.wrap` does) and the short
nonempty lines used below fit unsplit on one line. -/
def wrapStub (n : ℤ) (s : String) : List String := if s = "" then [] else [s]

/-! ## Helper lemmas about the Python value model -/

lemma toQ_int (z : ℤ) : (PyNum.int z).toQ = (z : ℚ) := rfl

lemma pymax_int_int (a b : ℤ) : pymax (.int a) (.int b) = .int (max a b) := by
  simp only [pymax, PyNum.toQ]
  split_ifs with h
  · rw [Int.cast_lt] at h
    rw [max_eq_right h.le]
  · rw [Int.cast_lt, not_lt] at h
    rw [max_eq_left h]

lemma pymin_int_int (a b : ℤ) : pymin (.int a) (.int b) = .int (min a b) := by
  simp only [pymin, PyNum.toQ]
  split_ifs with h
  · rw [Int.cast_lt] at h
    rw [min_eq_right h.le]
  · rw [Int.cast_lt, not_lt] at h
    rw [min_eq_left h]

lemma clampDim_int (z lo hi : ℤ) :
    clampDim (.int z) (.int lo) (.int hi) = .int (max lo (min hi z)) := by
  simp only [clampDim, pymin_int_int, pymax_int_int]

lemma clampDim_float (f : ℚ) (lo hi : ℤ) :
    clampDim (.float f) (.int lo) (.int hi) =
      .int (max lo (min hi (roundHalfEven ((lo : ℚ) + f * ((hi : ℚ) - lo))))) := by
  simp only [clampDim, PyNum.toQ, pymin_int_int, pymax_int_int]

lemma pyOrZero_int (bx : ℤ) : pyOrZero (some (.int bx)) = .int bx := by
  simp only [pyOrZero, PyNum.toQ]
  split_ifs with h
  · norm_cast at h
    rw [h]
  · rfl

lemma sub_int_int (a b : ℤ) : PyNum.sub (.int a) (.int b) = .int (a - b) := rfl

lemma add_int_int (a b : ℤ) : PyNum.add (.int a) (.int b) = .int (a + b) := rfl

namespace ConstrainedDimensions

/-- When the raw `base.x` contributes an integer `bx` (including the
absent-`x` case with `bx = 0`), the local width clamp is an integer with the
clamp's bounds. -/
lemma widthClamped_int (d : ConstrainedDimensions) (w : PyNum)
    (hbw : d.base.width = some w) (bx : ℤ) (hbx : pyOrZero d.base.x = .int bx) :
    ∃ cv : ℤ, d.widthClamped = some (.int cv) ∧ 0 ≤ cv ∧
      cv ≤ max 0 (d.cw - bx) ∧ (cv ≠ 0 → cv ≤ d.cw - bx) := by
  unfold widthClamped
  simp only [hbw, hbx, sub_int_int]
  cases w with
  | int z =>
      refine ⟨max 0 (min (d.cw - bx) z), by rw [clampDim_int], ?_, ?_, ?_⟩ <;> omega
  | float f =>
      refine ⟨max 0 (min (d.cw - bx)
        (roundHalfEven ((0 : ℚ) + f * (((d.cw - bx : ℤ) : ℚ) - 0)))), ?_, ?_, ?_, ?_⟩
      · rw [clampDim_float]
        norm_num
      all_goals omega

/-- Symmetric statement for the height clamp. -/
lemma heightClamped_int (d : ConstrainedDimensions) (h : PyNum)
    (hbh : d.base.height = some h) (by' : ℤ) (hby : pyOrZero d.base.y = .int by') :
    ∃ cv : ℤ, d.heightClamped = some (.int cv) ∧ 0 ≤ cv ∧
      cv ≤ max 0 (d.ch - by') ∧ (cv ≠ 0 → cv ≤ d.ch - by') := by
  unfold heightClamped
  simp only [hbh, hby, sub_int_int]
  cases h with
  | int z =>
      refine ⟨max 0 (min (d.ch - by') z), by rw [clampDim_int], ?_, ?_, ?_⟩ <;> omega
  | float f =>
      refine ⟨max 0 (min (d.ch - by')
        (roundHalfEven ((0 : ℚ) + f * (((d.ch - by' : ℤ) : ℚ) - 0)))), ?_, ?_, ?_, ?_⟩
      · rw [clampDim_float]
        norm_num
      all_goals omega

/-- When the raw `base.x` contributes a nonnegative integer, the resolved
width is an integer between `0` and `constraints.width`. -/
lemma width_int_bounds (d : ConstrainedDimensions) (bx : ℤ)
    (hbx : pyOrZero d.base.x = .int bx) (hbx0 : 0 ≤ bx) (hcw : 0 ≤ d.cw) :
    ∃ wv : ℤ, d.width = .int wv ∧ 0 ≤ wv ∧ wv ≤ d.cw := by
  unfold width
  cases hw : d.base.width with
  | none =>
      refine ⟨d.cw, ?_, hcw, le_refl d.cw⟩
      unfold widthClamped
      simp only [hw]
  | some w =>
      obtain ⟨cv, hcv, h0, hub, -⟩ := d.widthClamped_int w hw bx hbx
      simp only [hcv, toQ_int]
      by_cases hz : (cv : ℚ) = 0
      · rw [if_pos hz]
        exact ⟨d.cw, rfl, hcw, le_refl _⟩
      · rw [if_neg hz]
        exact ⟨cv, rfl, h0, by omega⟩

/-- Symmetric statement for the resolved height. -/
lemma height_int_bounds (d : ConstrainedDimensions) (by' : ℤ)
    (hby : pyOrZero d.base.y = .int by') (hby0 : 0 ≤ by') (hch : 0 ≤ d.ch) :
    ∃ hv : ℤ, d.height = .int hv ∧ 0 ≤ hv ∧ hv ≤ d.ch := by
  unfold height
  cases hh : d.base.height with
  | none =>
      refine ⟨d.ch, ?_, hch, le_refl d.ch⟩
      unfold heightClamped
      simp only [hh]
  | some h =>
      obtain ⟨cv, hcv, h0, hub, -⟩ := d.heightClamped_int h hh by' hby
      simp only [hcv, toQ_int]
      by_cases hz : (cv : ℚ) = 0
      · rw [if_pos hz]
        exact ⟨d.ch, rfl, hch, le_refl _⟩
      · rw [if_neg hz]
        exact ⟨cv, rfl, h0, by omega⟩

end ConstrainedDimensions

/-- For `0 ≤ m`, the centring term `m // 2` lies in `[0, m]`. -/
lemma floor_half_bounds (m : ℤ) (hm : 0 ≤ m) :
    0 ≤ ⌊((m : ℚ)) / 2⌋ ∧ ⌊((m : ℚ)) / 2⌋ ≤ m := by
  constructor
  · apply Int.floor_nonneg.mpr
    positivity
  · calc ⌊((m : ℚ)) / 2⌋ ≤ ⌊(m : ℚ)⌋ := by
          apply Int.floor_le_floor
          have : (0 : ℚ) ≤ (m : ℚ) := by exact_mod_cast hm
          linarith
        _ = m := Int.floor_intCast m

namespace ConstrainedDimensions

/-- The resolved `x` never falls below `constraints.x` (given a nonnegative
parent width, which the centring branch needs). -/
lemma x_lower_bound (d : ConstrainedDimensions) (hcw : 0 ≤ d.cw) :
    (d.cx : ℚ) ≤ d.x.toQ := by
  unfold x
  cases hbx : d.base.x with
  | none =>
      have hor : pyOrZero d.base.x = .int 0 := by rw [hbx]; rfl
      obtain ⟨wv, hwv, h0, hub⟩ := d.width_int_bounds 0 hor (le_refl 0) hcw
      simp only [hwv, sub_int_int, PyNum.floordiv2, add_int_int, toQ_int]
      have h12 := floor_half_bounds (d.cw - wv) (by omega)
      have hz : d.cx ≤ d.cx + ⌊((d.cw - wv : ℤ) : ℚ) / 2⌋ := by omega
      exact_mod_cast hz
  | some bx =>
      cases bx with
      | int z =>
          simp only [clampDim_int, toQ_int]
          have : d.cx ≤ max d.cx (min (d.cx + d.cw) z) := le_max_left _ _
          exact_mod_cast this
      | float f =>
          simp only [clampDim_float, toQ_int]
          have : d.cx ≤ max d.cx (min (d.cx + d.cw)
            (roundHalfEven ((d.cx : ℚ) + f * (((d.cx + d.cw : ℤ) : ℚ) - d.cx)))) :=
            le_max_left _ _
          exact_mod_cast this

/-- The resolved `y` never falls below `constraints.y`. -/
lemma y_lower_bound (d : ConstrainedDimensions) (hch : 0 ≤ d.ch) :
    (d.cy : ℚ) ≤ d.y.toQ := by
  unfold y
  cases hby : d.base.y with
  | none =>
      have hor : pyOrZero d.base.y = .int 0 := by rw [hby]; rfl
      obtain ⟨hv, hhv, h0, hub⟩ := d.height_int_bounds 0 hor (le_refl 0) hch
      simp only [hhv, sub_int_int, PyNum.floordiv2, add_int_int, toQ_int]
      have h12 := floor_half_bounds (d.ch - hv) (by omega)
      have hz : d.cy ≤ d.cy + ⌊((d.ch - hv : ℤ) : ℚ) / 2⌋ := by omega
      exact_mod_cast hz
  | some by0 =>
      cases by0 with
      | int z =>
          simp only [clampDim_int, toQ_int]
          have : d.cy ≤ max d.cy (min (d.cy + d.ch) z) := le_max_left _ _
          exact_mod_cast this
      | float f =>
          simp only [clampDim_float, toQ_int]
          have : d.cy ≤ max d.cy (min (d.cy + d.ch)
            (roundHalfEven ((d.cy : ℚ) + f * (((d.cy + d.ch : ℤ) : ℚ) - d.cy)))) :=
            le_max_left _ _
          exact_mod_cast this

/-- With an absent `base.x`, the centred window fits the parent. -/
lemma x_width_upper_centered (d : ConstrainedDimensions) (hcw : 0 ≤ d.cw)
    (hbx : d.base.x = none) :
    d.x.toQ + d.width.toQ ≤ (d.cx : ℚ) + d.cw := by
  have hor : pyOrZero d.base.x = .int 0 := by rw [hbx]; rfl
  obtain ⟨wv, hwv, h0, hub⟩ := d.width_int_bounds 0 hor (le_refl 0) hcw
  unfold x
  simp only [hbx, hwv, sub_int_int, PyNum.floordiv2, add_int_int, toQ_int]
  have h12 := floor_half_bounds (d.cw - wv) (by omega)
  have hz : d.cx + ⌊((d.cw - wv : ℤ) : ℚ) / 2⌋ + wv ≤ d.cx + d.cw := by omega
  exact_mod_cast hz

/-- With an absent `base.y`, the centred window fits the parent. -/
lemma y_height_upper_centered (d : ConstrainedDimensions) (hch : 0 ≤ d.ch)
    (hby : d.base.y = none) :
    d.y.toQ + d.height.toQ ≤ (d.cy : ℚ) + d.ch := by
  have hor : pyOrZero d.base.y = .int 0 := by rw [hby]; rfl
  obtain ⟨hv, hhv, h0, hub⟩ := d.height_int_bounds 0 hor (le_refl 0) hch
  unfold y
  simp only [hby, hhv, sub_int_int, PyNum.floordiv2, add_int_int, toQ_int]
  have h12 := floor_half_bounds (d.ch - hv) (by omega)
  have hz : d.cy + ⌊((d.ch - hv : ℤ) : ℚ) / 2⌋ + hv ≤ d.cy + d.ch := by omega
  exact_mod_cast hz

/-- With a nonnegative integer `base.x`, a present width whose clamp is
nonzero, and a nonnegative `constraints.x`, the window fits the parent. -/
lemma x_width_upper_present (d : ConstrainedDimensions) (bx : ℤ)
    (hbx : d.base.x = some (.int bx)) (hbx0 : 0 ≤ bx) (hcx : 0 ≤ d.cx)
    (w : PyNum) (hw : d.base.width = some w)
    (hnz : d.widthClamped ≠ some (.int 0)) :
    d.x.toQ + d.width.toQ ≤ (d.cx : ℚ) + d.cw := by
  obtain ⟨cv, hcv, h0, hub, himp⟩ :=
    d.widthClamped_int w hw bx (by rw [hbx]; exact pyOrZero_int bx)
  have hcvne : cv ≠ 0 := by
    intro h
    apply hnz
    rw [hcv, h]
  have hle : cv ≤ d.cw - bx := himp hcvne
  have hwidth : d.width = .int cv := by
    unfold width
    simp only [hcv, toQ_int]
    rw [if_neg (by exact_mod_cast hcvne)]
  unfold x
  simp only [hbx, clampDim_int, hwidth, toQ_int]
  have hz : max d.cx (min (d.cx + d.cw) bx) + cv ≤ d.cx + d.cw := by omega
  exact_mod_cast hz

/-- Symmetric statement for `y`/`height`. -/
lemma y_height_upper_present (d : ConstrainedDimensions) (by0 : ℤ)
    (hby : d.base.y = some (.int by0)) (hby0 : 0 ≤ by0) (hcy : 0 ≤ d.cy)
    (h : PyNum) (hh : d.base.height = some h)
    (hnz : d.heightClamped ≠ some (.int 0)) :
    d.y.toQ + d.height.toQ ≤ (d.cy : ℚ) + d.ch := by
  obtain ⟨cv, hcv, h0, hub, himp⟩ :=
    d.heightClamped_int h hh by0 (by rw [hby]; exact pyOrZero_int by0)
  have hcvne : cv ≠ 0 := by
    intro hz0
    apply hnz
    rw [hcv, hz0]
  have hle : cv ≤ d.ch - by0 := himp hcvne
  have hheight : d.height = .int cv := by
    unfold height
    simp only [hcv, toQ_int]
    rw [if_neg (by exact_mod_cast hcvne)]
  unfold y
  simp only [hby, clampDim_int, hheight, toQ_int]
  have hz : max d.cy (min (d.cy + d.ch) by0) + cv ≤ d.cy + d.ch := by omega
  exact_mod_cast hz

end ConstrainedDimensions

/-- Claim C1 is false as stated: bounds containment
`x + width ≤ constraints.x + constraints.width` fails on the code for
(1) a present `x` with absent width, (2) a fractional `x` with a present
width, (3) the zero-clamp fallback path, and (4) a negative
`constraints.x`. -/
theorem c1_counterexample :
    ((0 : ℚ) + 80 <
      (ConstrainedDimensions.x ⟨⟨some (.int 80), none, none, none⟩, 0, 0, 80, 24⟩).toQ +
      (ConstrainedDimensions.width ⟨⟨some (.int 80), none, none, none⟩, 0, 0, 80, 24⟩).toQ)
    ∧ ((0 : ℚ) + 80 <
      (ConstrainedDimensions.x ⟨⟨some (.float (1/2)), none, some (.int 79), none⟩, 0, 0, 80, 24⟩).toQ +
      (ConstrainedDimensions.width ⟨⟨some (.float (1/2)), none, some (.int 79), none⟩, 0, 0, 80, 24⟩).toQ)
    ∧ ((0 : ℚ) + 80 <
      (ConstrainedDimensions.x ⟨⟨some (.int 40), none, some (.int 0), none⟩, 0, 0, 80, 24⟩).toQ +
      (ConstrainedDimensions.width ⟨⟨some (.int 40), none, some (.int 0), none⟩, 0, 0, 80, 24⟩).toQ)
    ∧ ((-10 : ℚ) + 80 <
      (ConstrainedDimensions.x ⟨⟨some (.int 75), none, some (.int 10), none⟩, -10, 0, 80, 24⟩).toQ +
      (ConstrainedDimensions.width ⟨⟨some (.int 75), none, some (.int 10), none⟩, -10, 0, 80, 24⟩).toQ) := by
  refine ⟨?_, ?_, ?_, ?_⟩ <;>
    norm_num [ConstrainedDimensions.x, ConstrainedDimensions.width,
      ConstrainedDimensions.widthClamped, clampDim, pymax, pymin, pyOrZero,
      PyNum.toQ, PyNum.sub, roundHalfEven]

/-- Claim C1 (amended): with nonnegative constraint fields, resolved `x` and
`y` never fall below `constraints.x` / `constraints.y`; the full containment
`x + width ≤ constraints.x + constraints.width` (and symmetrically for
`y`/`height`) holds whenever `base.x` is absent (centred), or `base.x` is a
nonnegative integer, `base.width` is present, and the width clamp is nonzero
(so the zero-clamp fallback does not fire).  The counterexample shows each
excluded shape (absent width, fractional `x`, zero-clamp fallback, negative
constraint origin) genuinely violates containment. -/
theorem c1_bounds_containment (d : ConstrainedDimensions)
    (hcx : 0 ≤ d.cx) (hcy : 0 ≤ d.cy) (hcw : 0 ≤ d.cw) (hch : 0 ≤ d.ch) :
    ((d.cx : ℚ) ≤ d.x.toQ ∧ (d.cy : ℚ) ≤ d.y.toQ)
    ∧ (d.base.x = none → d.x.toQ + d.width.toQ ≤ (d.cx : ℚ) + d.cw)
    ∧ (∀ bx : ℤ, d.base.x = some (.int bx) → 0 ≤ bx → d.base.width ≠ none →
        d.widthClamped ≠ some (.int 0) →
        d.x.toQ + d.width.toQ ≤ (d.cx : ℚ) + d.cw)
    ∧ (d.base.y = none → d.y.toQ + d.height.toQ ≤ (d.cy : ℚ) + d.ch)
    ∧ (∀ by0 : ℤ, d.base.y = some (.int by0) → 0 ≤ by0 → d.base.height ≠ none →
        d.heightClamped ≠ some (.int 0) →
        d.y.toQ + d.height.toQ ≤ (d.cy : ℚ) + d.ch) := by
  refine ⟨⟨d.x_lower_bound hcw, d.y_lower_bound hch⟩, ?_, ?_, ?_, ?_⟩
  · intro hbx
    exact d.x_width_upper_centered hcw hbx
  · intro bx hbx hbx0 hwne hnz
    cases hw : d.base.width with
    | none => exact absurd hw hwne
    | some w => exact d.x_width_upper_present bx hbx hbx0 hcx w hw hnz
  · intro hby
    exact d.y_height_upper_centered hch hby
  · intro by0 hby hby0 hhne hnz
    cases hh : d.base.height with
    | none => exact absurd hh hhne
    | some h => exact d.y_height_upper_present by0 hby hby0 hcy h hh hnz

/-- Witness for the amended C1 at a concrete input: base
`(x=5, y=3, width=50, height=10)` against constraints `(0, 0, 80, 24)`. -/
theorem c1_bounds_containment_witness :
    ((0 : ℤ) ≤ 0 ∧ (0 : ℤ) ≤ 80 ∧ (0 : ℤ) ≤ 24 ∧ (0 : ℤ) ≤ 5) ∧
    (ConstrainedDimensions.x
        ⟨⟨some (.int 5), some (.int 3), some (.int 50), some (.int 10)⟩, 0, 0, 80, 24⟩).toQ +
      (ConstrainedDimensions.width
        ⟨⟨some (.int 5), some (.int 3), some (.int 50), some (.int 10)⟩, 0, 0, 80, 24⟩).toQ ≤
      (0 : ℚ) + 80 := by
  refine ⟨⟨by norm_num, by norm_num, by norm_num, by norm_num⟩, ?_⟩
  exact (c1_bounds_containment
      ⟨⟨some (.int 5), some (.int 3), some (.int 50), some (.int 10)⟩, 0, 0, 80, 24⟩
      (by norm_num) (by norm_num) (by norm_num) (by norm_num)).2.2.1 5 rfl
      (by norm_num) (by simp)
      (by norm_num [ConstrainedDimensions.widthClamped, clampDim, pymax, pymin,
        pyOrZero, PyNum.toQ, PyNum.sub])

/-- Claim C2: width resolution bounds a present integer width by
`constraints.width - base.x` using the raw, unresolved `base.x` (or `0` when
`base.x` is absent) — the formula below depends only on `cw - bx` and is
independent of `constraints.x` (hence of any clamping of `x`); symmetrically
height uses `constraints.height - base.y`; in particular base
`(x=70, width=20)` against constraints `(0, 0, 80, 24)` resolves width to
exactly `10`. -/
theorem c2_width_uses_raw_x :
    (∀ (bx w cx cy cw ch : ℤ) (by0 bh : Option PyNum),
      ConstrainedDimensions.width ⟨⟨some (.int bx), by0, some (.int w), bh⟩, cx, cy, cw, ch⟩ =
        .int (if max 0 (min (cw - bx) w) = 0 then cw else max 0 (min (cw - bx) w)))
    ∧ (∀ (w cx cy cw ch : ℤ) (by0 bh : Option PyNum),
      ConstrainedDimensions.width ⟨⟨none, by0, some (.int w), bh⟩, cx, cy, cw, ch⟩ =
        .int (if max 0 (min (cw - 0) w) = 0 then cw else max 0 (min (cw - 0) w)))
    ∧ (∀ (by0 h cx cy cw ch : ℤ) (bx bw : Option PyNum),
      ConstrainedDimensions.height ⟨⟨bx, some (.int by0), bw, some (.int h)⟩, cx, cy, cw, ch⟩ =
        .int (if max 0 (min (ch - by0) h) = 0 then ch else max 0 (min (ch - by0) h)))
    ∧ ConstrainedDimensions.width
        ⟨⟨some (.int 70), some (.int 0), some (.int 20), some (.int 10)⟩, 0, 0, 80, 24⟩ =
        .int 10 := by
  refine ⟨?_, ?_, ?_, ?_⟩
  · intro bx w cx cy cw ch by0 bh
    unfold ConstrainedDimensions.width ConstrainedDimensions.widthClamped
    simp only [pyOrZero_int, sub_int_int, clampDim_int, toQ_int]
    by_cases hz : max 0 (min (cw - bx) w) = 0
    · rw [if_pos (by exact_mod_cast hz), if_pos hz]
    · rw [if_neg (by exact_mod_cast hz), if_neg hz]
  · intro w cx cy cw ch by0 bh
    unfold ConstrainedDimensions.width ConstrainedDimensions.widthClamped
    have hor : pyOrZero (none : Option PyNum) = .int 0 := rfl
    simp only [hor, sub_int_int, clampDim_int, toQ_int]
    by_cases hz : max 0 (min (cw - 0) w) = 0
    · rw [if_pos (by exact_mod_cast hz), if_pos hz]
    · rw [if_neg (by exact_mod_cast hz), if_neg hz]
  · intro by0 h cx cy cw ch bx bw
    unfold ConstrainedDimensions.height ConstrainedDimensions.heightClamped
    simp only [pyOrZero_int, sub_int_int, clampDim_int, toQ_int]
    by_cases hz : max 0 (min (ch - by0) h) = 0
    · rw [if_pos (by exact_mod_cast hz), if_pos hz]
    · rw [if_neg (by exact_mod_cast hz), if_neg hz]
  · norm_num [ConstrainedDimensions.width, ConstrainedDimensions.widthClamped,
      clampDim, pymax, pymin, pyOrZero, PyNum.toQ, PyNum.sub]

/-- Claim C3 is false as stated: with `constraints.width = 0`, a present
`base.width` of `5` clamps to zero and the fallback returns
`constraints.width = 0`, so resolution with a present width field yields a
zero width. -/
theorem c3_counterexample :
    ConstrainedDimensions.width ⟨⟨none, none, some (.int 5), none⟩, 0, 0, 0, 24⟩ =
      .int 0 := by
  norm_num [ConstrainedDimensions.width, ConstrainedDimensions.widthClamped,
    clampDim, pymax, pymin, pyOrZero, PyNum.toQ, PyNum.sub]

/-- Claim C3 (amended): whenever a present `base.width` (resp. `base.height`)
clamps to exactly zero, the resolved width (resp. height) is the full
`constraints.width` (resp. `constraints.height`); and with a present width
field the resolved width is never zero provided `constraints.width ≠ 0` —
the counterexample shows that with `constraints.width = 0` the fallback
itself returns zero. -/
theorem c3_zero_clamp_fallback (d : ConstrainedDimensions) (w : PyNum)
    (hw : d.base.width = some w) :
    (∀ c, d.widthClamped = some c → c.toQ = 0 → d.width = .int d.cw)
    ∧ (d.cw ≠ 0 → d.width.toQ ≠ 0)
    ∧ (∀ h, d.base.height = some h →
        (∀ c, d.heightClamped = some c → c.toQ = 0 → d.height = .int d.ch)
        ∧ (d.ch ≠ 0 → d.height.toQ ≠ 0)) := by
  refine ⟨?_, ?_, ?_⟩
  · intro c hc hcq
    unfold ConstrainedDimensions.width
    simp only [hc]
    rw [if_pos hcq]
  · intro hcw
    unfold ConstrainedDimensions.width
    cases hc : d.widthClamped with
    | none =>
        simp only [toQ_int]
        exact_mod_cast hcw
    | some c =>
        by_cases hz : c.toQ = 0
        · simp only [if_pos hz, toQ_int]
          exact_mod_cast hcw
        · simp only [if_neg hz]
          exact hz
  · intro h hh
    refine ⟨?_, ?_⟩
    · intro c hc hcq
      unfold ConstrainedDimensions.height
      simp only [hc]
      rw [if_pos hcq]
    · intro hch
      unfold ConstrainedDimensions.height
      cases hc : d.heightClamped with
      | none =>
          simp only [toQ_int]
          exact_mod_cast hch
      | some c =>
          by_cases hz : c.toQ = 0
          · simp only [if_pos hz, toQ_int]
            exact_mod_cast hch
          · simp only [if_neg hz]
            exact hz

/-- Witness for the amended C3: base width `0` against constraints
`(0, 0, 80, 24)` clamps to zero and resolves to the full width `80`, which is
nonzero. -/
theorem c3_zero_clamp_fallback_witness :
    ConstrainedDimensions.width ⟨⟨some (.int 40), none, some (.int 0), none⟩, 0, 0, 80, 24⟩ =
      .int 80 ∧
    (ConstrainedDimensions.width
      ⟨⟨some (.int 40), none, some (.int 0), none⟩, 0, 0, 80, 24⟩).toQ ≠ 0 := by
  have hfall := (c3_zero_clamp_fallback
    ⟨⟨some (.int 40), none, some (.int 0), none⟩, 0, 0, 80, 24⟩ (.int 0) rfl).1
    (clampDim (.int 0) (.int 0)
      (PyNum.sub (.int 80) (pyOrZero (some (.int 40)))))
    rfl
    (by norm_num [clampDim, pymax, pymin, pyOrZero, PyNum.toQ, PyNum.sub])
  have hnz := (c3_zero_clamp_fallback
    ⟨⟨some (.int 40), none, some (.int 0), none⟩, 0, 0, 80, 24⟩ (.int 0) rfl).2.1
    (by norm_num)
  exact ⟨hfall, hnz⟩

/-- Claim C8: a fractional field producing a non-integer clamp bound keeps
the non-integer result: base `(x=1.5, width=2.0)` against constraints
`(0, 0, 100, 50)` resolves width to exactly the float `98.5`, whose value has
denominator `2` (so it is not an integer — not rounded). -/
theorem c8_float_leak :
    ConstrainedDimensions.width
        ⟨⟨some (.float (3/2)), some (.float (-1/2)), some (.float 2), some (.float (1/2))⟩,
          0, 0, 100, 50⟩ =
      .float (197/2)
    ∧ ((ConstrainedDimensions.width
        ⟨⟨some (.float (3/2)), some (.float (-1/2)), some (.float 2), some (.float (1/2))⟩,
          0, 0, 100, 50⟩).toQ).den = 2 := by
  constructor
  · norm_num [ConstrainedDimensions.width, ConstrainedDimensions.widthClamped,
      clampDim, pymax, pymin, pyOrZero, PyNum.toQ, PyNum.sub, roundHalfEven]
  · norm_num [ConstrainedDimensions.width, ConstrainedDimensions.widthClamped,
      clampDim, pymax, pymin, pyOrZero, PyNum.toQ, PyNum.sub, roundHalfEven]

lemma add_int_zero (v : PyNum) : PyNum.add v (.int 0) = v := by
  cases v with
  | int a => simp [PyNum.add]
  | float q => simp [PyNum.add, PyNum.toQ]

/-- Claim C4: a window's content rectangle is derived purely from its resolved
position by the fixed border offset — `(+1, +1, -2, -2)` when bordered,
identity otherwise — and a bordered 50×20 window on an 80×24 terminal has
content `(x+1, y+1, 48, 18) = (16, 3, 48, 18)`. -/
theorem c4_content_derived_from_position :
    (∀ (b : Dimensions) (tw th : ℤ),
      (Window.content ⟨b, true, tw, th⟩).x =
          PyNum.add (ConstrainedDimensions.x (Window.position ⟨b, true, tw, th⟩)) (.int 1)
      ∧ (Window.content ⟨b, true, tw, th⟩).y =
          PyNum.add (ConstrainedDimensions.y (Window.position ⟨b, true, tw, th⟩)) (.int 1)
      ∧ (Window.content ⟨b, true, tw, th⟩).width =
          PyNum.add (ConstrainedDimensions.width (Window.position ⟨b, true, tw, th⟩)) (.int (-2))
      ∧ (Window.content ⟨b, true, tw, th⟩).height =
          PyNum.add (ConstrainedDimensions.height (Window.position ⟨b, true, tw, th⟩)) (.int (-2)))
    ∧ (∀ (b : Dimensions) (tw th : ℤ),
      (Window.content ⟨b, false, tw, th⟩).x =
          ConstrainedDimensions.x (Window.position ⟨b, false, tw, th⟩)
      ∧ (Window.content ⟨b, false, tw, th⟩).y =
          ConstrainedDimensions.y (Window.position ⟨b, false, tw, th⟩)
      ∧ (Window.content ⟨b, false, tw, th⟩).width =
          ConstrainedDimensions.width (Window.position ⟨b, false, tw, th⟩)
      ∧ (Window.content ⟨b, false, tw, th⟩).height =
          ConstrainedDimensions.height (Window.position ⟨b, false, tw, th⟩))
    ∧ ((Window.content ⟨⟨none, none, some (.int 50), some (.int 20)⟩, true, 80, 24⟩).x = .int 16
      ∧ (Window.content ⟨⟨none, none, some (.int 50), some (.int 20)⟩, true, 80, 24⟩).y = .int 3
      ∧ (Window.content ⟨⟨none, none, some (.int 50), some (.int 20)⟩, true, 80, 24⟩).width = .int 48
      ∧ (Window.content ⟨⟨none, none, some (.int 50), some (.int 20)⟩, true, 80, 24⟩).height = .int 18
      ∧ ConstrainedDimensions.x (Window.position ⟨⟨none, none, some (.int 50), some (.int 20)⟩, true, 80, 24⟩) = .int 15
      ∧ ConstrainedDimensions.y (Window.position ⟨⟨none, none, some (.int 50), some (.int 20)⟩, true, 80, 24⟩) = .int 2) := by
  refine ⟨?_, ?_, ?_⟩
  · intro b tw th
    exact ⟨rfl, rfl, rfl, rfl⟩
  · intro b tw th
    refine ⟨?_, ?_, ?_, ?_⟩ <;>
      simp only [Window.content, Bool.false_eq_true, if_false, OffsetDimensions.x,
        OffsetDimensions.y, OffsetDimensions.width, OffsetDimensions.height, add_int_zero]
  · refine ⟨?_, ?_, ?_, ?_, ?_, ?_⟩ <;>
      norm_num [Window.content, Window.position, OffsetDimensions.x, OffsetDimensions.y,
        OffsetDimensions.width, OffsetDimensions.height, ConstrainedDimensions.x,
        ConstrainedDimensions.y, ConstrainedDimensions.width, ConstrainedDimensions.height,
        ConstrainedDimensions.widthClamped, ConstrainedDimensions.heightClamped,
        clampDim, pymax, pymin, pyOrZero, PyNum.toQ, PyNum.sub, PyNum.add, PyNum.floordiv2]

namespace TextWindow

lemma handleInput_down_le (t h : ℤ) (s : TWScroll) (hs : s.scroll ≤ t - h) :
    (handleInput t h .down s).scroll ≤ t - h := by
  unfold handleInput baseHandleInput
  split_ifs <;> simp_all <;> omega

lemma handleInput_pgdown_le (t h : ℤ) (s : TWScroll) (hs : s.scroll ≤ t - h) :
    (handleInput t h .pgdown s).scroll ≤ t - h := by
  unfold handleInput baseHandleInput
  split_ifs <;> simp_all <;> omega

lemma handleInput_up_ge (t h : ℤ) (s : TWScroll) (hs : 0 ≤ s.scroll) :
    0 ≤ (handleInput t h .up s).scroll := by
  unfold handleInput baseHandleInput
  split_ifs <;> simp_all <;> omega

lemma handleInput_pgup_ge (t h : ℤ) (s : TWScroll) (hs : 0 ≤ s.scroll) :
    0 ≤ (handleInput t h .pgup s).scroll := by
  unfold handleInput baseHandleInput
  split_ifs <;> simp_all <;> omega

end TextWindow

/-- Claim C5 is false as stated: with `visible_height = 0` and one wrapped
line (`total_lines = 1 > 0 = visible_height`, scroll `0` in the valid range
`[0, 1]`), a page-down leaves `scroll` unchanged at `0` yet sets the redraw
flag — so redraw is not set exactly when scroll changes. -/
theorem c5_counterexample :
    (TextWindow.handleInput 1 0 .pgdown ⟨0, false, false⟩).scroll = 0
    ∧ (TextWindow.handleInput 1 0 .pgdown ⟨0, false, false⟩).redraw = true := by
  constructor <;> rfl

/-- Claim C5 (amended with `visible_height ≥ 1`, which the counterexample
shows is needed for the redraw clause): starting from a valid scroll with
overflowing content, any sequence of down/page-down inputs keeps
`scroll ≤ total_lines − visible_height` and any sequence of up/page-up inputs
keeps `scroll ≥ 0`; a single arrow key moves scroll by 1 and a page key by
`visible_height`, each clamped to `[0, total_lines − visible_height]`; and
from a clear redraw flag, a scroll key sets redraw exactly when scroll
actually changes. -/
theorem c5_scroll_bounds (totalLines visibleH : ℤ) (hvh : 1 ≤ visibleH)
    (hov : visibleH < totalLines) :
    (∀ ks : List Key, (∀ k ∈ ks, k = Key.down ∨ k = Key.pgdown) →
      ∀ s : TWScroll, s.scroll ≤ totalLines - visibleH →
        (TextWindow.runKeys totalLines visibleH s ks).scroll ≤ totalLines - visibleH)
    ∧ (∀ ks : List Key, (∀ k ∈ ks, k = Key.up ∨ k = Key.pgup) →
      ∀ s : TWScroll, 0 ≤ s.scroll →
        0 ≤ (TextWindow.runKeys totalLines visibleH s ks).scroll)
    ∧ (∀ s : TWScroll, 0 ≤ s.scroll → s.scroll ≤ totalLines - visibleH →
        (TextWindow.handleInput totalLines visibleH .down s).scroll
            = min (s.scroll + 1) (totalLines - visibleH)
        ∧ (TextWindow.handleInput totalLines visibleH .up s).scroll
            = max (s.scroll - 1) 0
        ∧ (TextWindow.handleInput totalLines visibleH .pgdown s).scroll
            = min (s.scroll + visibleH) (totalLines - visibleH)
        ∧ (TextWindow.handleInput totalLines visibleH .pgup s).scroll
            = max (s.scroll - visibleH) 0)
    ∧ (∀ (s : TWScroll) (k : Key), k ≠ Key.escape → k ≠ Key.other →
        0 ≤ s.scroll → s.scroll ≤ totalLines - visibleH → s.redraw = false →
        ((TextWindow.handleInput totalLines visibleH k s).redraw = true ↔
          (TextWindow.handleInput totalLines visibleH k s).scroll ≠ s.scroll)) := by
  have hgt : totalLines > visibleH := hov
  refine ⟨?_, ?_, ?_, ?_⟩
  · intro ks
    induction ks with
    | nil =>
        intro hks s hs
        simpa [TextWindow.runKeys] using hs
    | cons k ks ih =>
        intro hks s hs
        have hk := hks k (List.mem_cons_self k ks)
        have step : (TextWindow.handleInput totalLines visibleH k s).scroll ≤
            totalLines - visibleH := by
          rcases hk with rfl | rfl
          · exact TextWindow.handleInput_down_le _ _ _ hs
          · exact TextWindow.handleInput_pgdown_le _ _ _ hs
        simpa [TextWindow.runKeys, List.foldl_cons] using
          ih (fun k' hk' => hks k' (List.mem_cons_of_mem _ hk')) _ step
  · intro ks
    induction ks with
    | nil =>
        intro hks s hs
        simpa [TextWindow.runKeys] using hs
    | cons k ks ih =>
        intro hks s hs
        have hk := hks k (List.mem_cons_self k ks)
        have step : 0 ≤ (TextWindow.handleInput totalLines visibleH k s).scroll := by
          rcases hk with rfl | rfl
          · exact TextWindow.handleInput_up_ge _ _ _ hs
          · exact TextWindow.handleInput_pgup_ge _ _ _ hs
        simpa [TextWindow.runKeys, List.foldl_cons] using
          ih (fun k' hk' => hks k' (List.mem_cons_of_mem _ hk')) _ step
  · intro s h0 hub
    refine ⟨?_, ?_, ?_, ?_⟩ <;>
      · unfold TextWindow.handleInput TextWindow.baseHandleInput
        split_ifs <;> simp_all <;> omega
  · intro s k hke hko h0 hub hrd
    cases k with
    | escape => exact absurd rfl hke
    | other => exact absurd rfl hko
    | down =>
        unfold TextWindow.handleInput TextWindow.baseHandleInput
        split_ifs <;> simp_all <;> omega
    | up =>
        unfold TextWindow.handleInput TextWindow.baseHandleInput
        split_ifs <;> simp_all <;> omega
    | pgdown =>
        unfold TextWindow.handleInput TextWindow.baseHandleInput
        split_ifs <;> simp_all <;> omega
    | pgup =>
        unfold TextWindow.handleInput TextWindow.baseHandleInput
        split_ifs <;> simp_all <;> omega

/-- Witness for the amended C5: ten lines in a three-line content area, one
down-arrow from the top moves scroll to `min (0+1) (10−3) = 1`. -/
theorem c5_scroll_bounds_witness :
    ((1 : ℤ) ≤ 3 ∧ (3 : ℤ) < 10) ∧
    (TextWindow.handleInput 10 3 .down ⟨0, false, false⟩).scroll = min (0 + 1) (10 - 3) := by
  refine ⟨⟨by norm_num, by norm_num⟩, ?_⟩
  exact ((c5_scroll_bounds 10 3 (by norm_num) (by norm_num)).2.2.1
    ⟨0, false, false⟩ (by norm_num) (by norm_num)).1

lemma pyOrLines_ne_nil (ls : List String) : pyOrLines ls ≠ [] := by
  unfold pyOrLines
  split_ifs with h
  · simp
  · intro hc
    subst hc
    exact h rfl

lemma flatMap_ne_nil {α β : Type} (l : List α) (f : α → List β) (hl : l ≠ [])
    (hf : ∀ a, f a ≠ []) : l.flatMap f ≠ [] := by
  cases l with
  | nil => exact absurd rfl hl
  | cons a t =>
      intro hc
      rw [List.flatMap_cons, List.append_eq_nil] at hc
      exact hf a hc.1

lemma wrapLines_ne_nil (wrap : ℤ → String → List String) (mcw : ℤ) (text : String) :
    TextWindow.wrapLines wrap mcw text ≠ [] :=
  flatMap_ne_nil _ _ (pyOrLines_ne_nil _) (fun _ => pyOrLines_ne_nil _)

lemma pyInt_nonneg_of_le (q : ℚ) (n : ℤ) (hn : 0 < n) (h : n ≤ pyInt q) : 0 ≤ q := by
  by_contra hq
  push_neg at hq
  unfold pyInt at h
  rw [if_neg (not_le.mpr hq)] at h
  have hfl : 0 ≤ ⌊-q⌋ := Int.floor_nonneg.mpr (by linarith)
  omega

lemma pyInt_le_self (q : ℚ) (hq : 0 ≤ q) : (pyInt q : ℚ) ≤ q := by
  unfold pyInt
  rw [if_pos hq]
  exact Int.floor_le q

/-- Claim C6 is false as stated: on a terminal 11 columns wide, any text
(here the empty text) self-sizes to the minimum width `10`, which exceeds
`0.9 × 11 = 9.9`. -/
theorem c6_counterexample :
    (TextWindow.handleResize wrapStub "" true 11 24).baseWidth = 10
    ∧ (11 : ℚ) * (9 / 10) < 10 := by
  constructor
  · have h9 : pyInt ((11 : ℚ) * (9 / 10)) = 9 := by norm_num [pyInt]
    have hbw : (TextWindow.handleResize wrapStub "" true 11 24).baseWidth =
        max 10 (min (pyInt ((11 : ℚ) * (9 / 10)))
          (maxLineLength (TextWindow.wrapLines wrapStub
            (pyInt ((11 : ℚ) * (9 / 10)) + -2 - 2) "") - -2)) := rfl
    rw [hbw, h9]
    decide
  · norm_num

/-- Claim C6 (amended with the terminal-size proviso
`⌊0.9 × width⌋ ≥ 10` and `⌊0.9 × height⌋ ≥ 6`, which the counterexample
shows is needed — on smaller terminals the 10/6 minimums win over the 0.9
ceiling): after `handle_resize`, for any text and any wrapping function that
wraps an empty line to no lines, the desired width lies in
`[10, 0.9 × terminal width]`, the desired height in
`[6, 0.9 × terminal height]`, at least one wrapped line exists, and the empty
text yields exactly one empty line and the minimum 10×6 size. -/
theorem c6_self_sizing (wrap : ℤ → String → List String) (text : String)
    (border : Bool) (tw th : ℤ)
    (hw : 10 ≤ pyInt ((tw : ℚ) * (9 / 10))) (hh : 6 ≤ pyInt ((th : ℚ) * (9 / 10)))
    (hwe : ∀ n : ℤ, wrap n "" = []) :
    (10 ≤ (TextWindow.handleResize wrap text border tw th).baseWidth
      ∧ ((TextWindow.handleResize wrap text border tw th).baseWidth : ℚ) ≤ (tw : ℚ) * (9 / 10))
    ∧ (6 ≤ (TextWindow.handleResize wrap text border tw th).baseHeight
      ∧ ((TextWindow.handleResize wrap text border tw th).baseHeight : ℚ) ≤ (th : ℚ) * (9 / 10))
    ∧ (TextWindow.handleResize wrap text border tw th).lines ≠ []
    ∧ (text = "" →
        (TextWindow.handleResize wrap text border tw th).baseWidth = 10
        ∧ (TextWindow.handleResize wrap text border tw th).baseHeight = 6
        ∧ (TextWindow.handleResize wrap text border tw th).lines = [""]) := by
  have hqw : (0 : ℚ) ≤ (tw : ℚ) * (9 / 10) := pyInt_nonneg_of_le _ 10 (by norm_num) hw
  have hqh : (0 : ℚ) ≤ (th : ℚ) * (9 / 10) := pyInt_nonneg_of_le _ 6 (by norm_num) hh
  have hlew : (pyInt ((tw : ℚ) * (9 / 10)) : ℚ) ≤ (tw : ℚ) * (9 / 10) := pyInt_le_self _ hqw
  have hleh : (pyInt ((th : ℚ) * (9 / 10)) : ℚ) ≤ (th : ℚ) * (9 / 10) := pyInt_le_self _ hqh
  have hbw : (TextWindow.handleResize wrap text border tw th).baseWidth =
      max 10 (min (pyInt ((tw : ℚ) * (9 / 10)))
        (maxLineLength (TextWindow.wrapLines wrap
          (pyInt ((tw : ℚ) * (9 / 10)) + (if border then (-2 : ℤ) else 0) - 2) text) -
          (if border then (-2 : ℤ) else 0))) := rfl
  have hbh : (TextWindow.handleResize wrap text border tw th).baseHeight =
      max 6 (min (pyInt ((th : ℚ) * (9 / 10)))
        (((TextWindow.wrapLines wrap
          (pyInt ((tw : ℚ) * (9 / 10)) + (if border then (-2 : ℤ) else 0) - 2) text).length : ℤ) -
          (if border then (-2 : ℤ) else 0))) := rfl
  have hls : (TextWindow.handleResize wrap text border tw th).lines =
      TextWindow.wrapLines wrap
        (pyInt ((tw : ℚ) * (9 / 10)) + (if border then (-2 : ℤ) else 0) - 2) text := rfl
  refine ⟨⟨?_, ?_⟩, ⟨?_, ?_⟩, ?_, ?_⟩
  · rw [hbw]
    exact le_max_left _ _
  · rw [hbw]
    have hz : max 10 (min (pyInt ((tw : ℚ) * (9 / 10))) (maxLineLength (TextWindow.wrapLines wrap
        (pyInt ((tw : ℚ) * (9 / 10)) + (if border then (-2 : ℤ) else 0) - 2) text) -
        (if border then (-2 : ℤ) else 0))) ≤ pyInt ((tw : ℚ) * (9 / 10)) := by omega
    calc ((max 10 (min (pyInt ((tw : ℚ) * (9 / 10))) (maxLineLength (TextWindow.wrapLines wrap
          (pyInt ((tw : ℚ) * (9 / 10)) + (if border then (-2 : ℤ) else 0) - 2) text) -
          (if border then (-2 : ℤ) else 0))) : ℤ) : ℚ) ≤ (pyInt ((tw : ℚ) * (9 / 10)) : ℚ) := by
            exact_mod_cast hz
      _ ≤ (tw : ℚ) * (9 / 10) := hlew
  · rw [hbh]
    exact le_max_left _ _
  · rw [hbh]
    have hz : max 6 (min (pyInt ((th : ℚ) * (9 / 10))) (((TextWindow.wrapLines wrap
        (pyInt ((tw : ℚ) * (9 / 10)) + (if border then (-2 : ℤ) else 0) - 2) text).length : ℤ) -
        (if border then (-2 : ℤ) else 0))) ≤ pyInt ((th : ℚ) * (9 / 10)) := by omega
    calc ((max 6 (min (pyInt ((th : ℚ) * (9 / 10))) (((TextWindow.wrapLines wrap
          (pyInt ((tw : ℚ) * (9 / 10)) + (if border then (-2 : ℤ) else 0) - 2) text).length : ℤ) -
          (if border then (-2 : ℤ) else 0))) : ℤ) : ℚ) ≤ (pyInt ((th : ℚ) * (9 / 10)) : ℚ) := by
            exact_mod_cast hz
      _ ≤ (th : ℚ) * (9 / 10) := hleh
  · rw [hls]
    exact wrapLines_ne_nil _ _ _
  · intro ht
    subst ht
    have hsplit : pySplitlines "" = [] := rfl
    have hf : TextWindow.wrapLines wrap
        (pyInt ((tw : ℚ) * (9 / 10)) + (if border then (-2 : ℤ) else 0) - 2) "" = [""] := by
      simp [TextWindow.wrapLines, hsplit, pyOrLines, hwe]
    have hml : maxLineLength [""] = 2 := rfl
    refine ⟨?_, ?_, ?_⟩
    · rw [hbw, hf, hml]
      split_ifs <;> omega
    · rw [hbh, hf]
      simp only [List.length_singleton]
      split_ifs <;> omega
    · rw [hls, hf]

/-- Witness for the amended C6 at a concrete input: the empty text on an
80×24 terminal (0.9-bounds 72 and 21) sizes to the 10×6 minimum. -/
theorem c6_self_sizing_witness :
    (10 ≤ pyInt ((80 : ℚ) * (9 / 10)) ∧ 6 ≤ pyInt ((24 : ℚ) * (9 / 10))) ∧
    (TextWindow.handleResize wrapStub "" true 80 24).baseWidth = 10 := by
  refine ⟨⟨by norm_num [pyInt], by norm_num [pyInt]⟩, ?_⟩
  exact ((c6_self_sizing wrapStub "" true 80 24 (by norm_num [pyInt])
    (by norm_num [pyInt]) (fun n => rfl)).2.2.2 rfl).1

/-- Claim C9 is false as stated: immediately after construction the wrapped
line sequence has already been computed — `TextWindow.__init__` calls
`Window.__init__`, whose `self.term = term` assignment triggers
`handle_resize` (see the `term` setter), which wraps the text.  Constructing
with text `"abc"` on an 80×24 terminal leaves `_lines = ["abc"] ≠ []`. -/
theorem c9_counterexample :
    (TextWindow.init wrapStub (.str "abc") true 80 24).lines = ["abc"]
    ∧ (TextWindow.init wrapStub (.str "abc") true 80 24).lines ≠ [] := by
  have h72 : pyInt ((80 : ℚ) * (9 / 10)) = 72 := by norm_num [pyInt]
  have hls : (TextWindow.init wrapStub (.str "abc") true 80 24).lines =
      TextWindow.wrapLines wrapStub (pyInt ((80 : ℚ) * (9 / 10)) + -2 - 2) "abc" := rfl
  constructor
  · rw [hls, h72]
    decide
  · rw [hls, h72]
    decide

/-- Claim C9 (amended): on construction the source text is stored verbatim
(a list of lines is joined with line breaks), but wrapping is *not* deferred:
construction itself triggers `handle_resize` through the terminal-handle
setter, so immediately after construction the wrapped line sequence is
already computed (nonempty for every wrapping function) and equals exactly
what `handle_resize` produces. -/
theorem c9_construction_wraps (wrap : ℤ → String → List String)
    (arg : TextWindow.TextArg) (border : Bool) (tw th : ℤ) :
    (TextWindow.init wrap arg border tw th).text = TextWindow.textOfArg arg
    ∧ (∀ ls : List String, TextWindow.textOfArg (.list ls) = joinNl ls)
    ∧ (TextWindow.init wrap arg border tw th).scroll = 0
    ∧ (TextWindow.init wrap arg border tw th).lines =
        (TextWindow.handleResize wrap (TextWindow.textOfArg arg) border tw th).lines
    ∧ (TextWindow.init wrap arg border tw th).lines ≠ [] := by
  refine ⟨rfl, fun ls => rfl, rfl, rfl, ?_⟩
  have hls : (TextWindow.init wrap arg border tw th).lines =
      TextWindow.wrapLines wrap
        (pyInt ((tw : ℚ) * (9 / 10)) + (if border then (-2 : ℤ) else 0) - 2)
        (TextWindow.textOfArg arg) := rfl
  rw [hls]
  exact wrapLines_ne_nil _ _ _

/-- Claim C7: dispatching a key to the topmost window runs its input handler;
if the window is then closed it is popped (its child slot, even when
non-absent, is never pushed — the result is exactly `pop_window`'s, whose
length is the remaining stack's); otherwise a non-absent child is pushed on
top with its redraw flag set while the parent's child slot is cleared at that
instant; with no child and not closed, the stack is unchanged apart from the
handler's effect on the top window. -/
theorem c7_key_dispatch (handler : PWin → PWin) (w : PWin) (rest : List PWin) :
    ((handler w).closed = true →
      WindowController.handleKey handler (w :: rest) =
          WindowController.popWindow (handler w :: rest)
      ∧ (WindowController.handleKey handler (w :: rest)).length = rest.length)
    ∧ (∀ c, (handler w).closed = false → (handler w).child = some c →
      WindowController.handleKey handler (w :: rest) =
          PWin.setRedraw c :: PWin.clearChild (handler w) :: rest
      ∧ (PWin.clearChild (handler w)).child = none)
    ∧ ((handler w).closed = false → (handler w).child = none →
      WindowController.handleKey handler (w :: rest) = handler w :: rest) := by
  refine ⟨?_, ?_, ?_⟩
  · intro hc
    constructor
    · simp [WindowController.handleKey, hc]
    · simp only [WindowController.handleKey, hc, if_true]
      cases rest <;> simp [WindowController.popWindow]
  · intro c hcl hch
    constructor
    · simp [WindowController.handleKey, WindowController.pushWindow, hcl, hch]
    · cases hwp : handler w with
      | mk cl rd ch => simp [PWin.clearChild, PWin.child]
  · intro hcl hch
    simp [WindowController.handleKey, hcl, hch]

/-- Witness for C7 at a concrete input: a handler that closes the window pops
the only window off a one-window stack, leaving length `0`. -/
theorem c7_key_dispatch_witness :
    ((fun p => PWin.mk true (PWin.redraw p) (PWin.child p)) (PWin.mk false false none)).closed = true
    ∧ (WindowController.handleKey (fun p => PWin.mk true (PWin.redraw p) (PWin.child p))
        [PWin.mk false false none]).length = 0 := by
  refine ⟨rfl, ?_⟩
  exact ((c7_key_dispatch (fun p => PWin.mk true (PWin.redraw p) (PWin.child p))
    (PWin.mk false false none) []).1 rfl).2

/-- Claim C10: `TextWindow.draw` is total — the `scroll_pos` division is
performed only when `total_lines - visible_height` is strictly positive (a
nonzero denominator), otherwise `scroll_pos` stays absent; and for
`scroll ≥ 0` every row index below `total_lines` is a valid index into the
wrapped lines while rows at or beyond `total_lines` are painted as the blank
padded line (all spaces). -/
theorem c10_draw_total (lines : List String) (contentH contentW scroll : ℤ)
    (hs : 0 ≤ scroll) :
    (TextWindow.belowTheFold lines contentH ≤ 0 →
        TextWindow.scrollPos lines contentH scroll = none)
    ∧ (0 < TextWindow.belowTheFold lines contentH →
        TextWindow.scrollPos lines contentH scroll =
          some ((scroll : ℚ) / ((TextWindow.belowTheFold lines contentH : ℤ) : ℚ))
        ∧ ((TextWindow.belowTheFold lines contentH : ℤ) : ℚ) ≠ 0)
    ∧ (∀ i : ℕ, scroll + (i : ℤ) < (lines.length : ℤ) →
        (scroll + (i : ℤ)).toNat < lines.length)
    ∧ (∀ i : ℕ, (lines.length : ℤ) ≤ scroll + (i : ℤ) →
        TextWindow.rowLine lines contentW scroll i = pyLjust "" (contentW - 2))
    ∧ (∀ ch ∈ (pyLjust "" (contentW - 2)).data, ch = Char.ofNat 32) := by
  refine ⟨?_, ?_, ?_, ?_, ?_⟩
  · intro h
    unfold TextWindow.scrollPos
    rw [if_neg (not_lt.mpr h)]
  · intro h
    refine ⟨?_, ?_⟩
    · unfold TextWindow.scrollPos
      rw [if_pos h]
    · have : (TextWindow.belowTheFold lines contentH : ℤ) ≠ 0 := ne_of_gt h
      exact_mod_cast this
  · intro i hi
    omega
  · intro i hi
    simp only [TextWindow.rowLine]
    rw [if_neg (not_lt.mpr hi)]
  · intro ch hch
    unfold pyLjust at hch
    split_ifs at hch with hlen
    · rw [String.data_append] at hch
      rcases List.mem_append.mp hch with hl | hr
      · simp only [String.data] at hl
        exact absurd hl (List.not_mem_nil ch)
      · exact List.eq_of_mem_replicate hr
    · simp only [String.data] at hch
      exact absurd hch (List.not_mem_nil ch)

/-- Witness for C10 at a concrete input: one wrapped line in a five-row
content area is not scrollable, so `scroll_pos` stays absent; and row `3`
(beyond the single line) paints as the blank padded line. -/
theorem c10_draw_total_witness :
    ((0 : ℤ) ≤ 0) ∧
    TextWindow.scrollPos ["a"] 5 0 = none ∧
    TextWindow.rowLine ["a"] 40 0 3 = pyLjust "" (40 - 2) := by
  refine ⟨le_refl 0, ?_, ?_⟩
  · exact (c10_draw_total ["a"] 5 40 0 (le_refl 0)).1 (by norm_num [TextWindow.belowTheFold])
  · exact (c10_draw_total ["a"] 5 40 0 (le_refl 0)).2.2.2.1 3 (by norm_num)

end TermWindows
